import Mathlib

set_option maxRecDepth 4000

/-!
# FloatInspector: a verification development

Shallow embedding of `src/FloatInspector.cpp`, a program that reinterprets
the bits of a hard-coded 32-bit float (`1.1f`) as an integer and prints a
two-line table: a header row (built by `createHeader`) and a row with the
32 bits, most-significant first.

Machine integers are modelled as `Nat`/`Int` with explicit wrap-around
(`% 2^64` for `size_t`, two's-complement truncation for `int`) exactly
where the C++ arithmetic wraps.
-/

namespace FloatInspector

/-! ## Decomposer

The repository's code prints the 32 bits directly; the field extraction
below is the decomposer the specification describes over those bits. -/

/-- Modelled from the spec: `sign = (bits >> 31) & 1` (§4.1); the source
only prints the raw bits, the named field extraction exists in the spec. -/
def sign (bits : Nat) : Nat := (bits >>> 31) &&& 1

/-- Modelled from the spec: `exponent = (bits >> 23) & 0xFF` (§4.1). -/
def exponent (bits : Nat) : Nat := (bits >>> 23) &&& 0xFF

/-- Modelled from the spec: `mantissa = bits & 0x7FFFFF` (§4.1). -/
def mantissa (bits : Nat) : Nat := bits &&& 0x7FFFFF

/-- Modelled from the spec: the recombination `sign<<31 | exponent<<23 | mantissa`
(§3, §8); `|` in C is left-associative, as `|||` is here. -/
def recombine (s e m : Nat) : Nat := s <<< 31 ||| e <<< 23 ||| m

/-! ## The float literals

The source stores `float f = 1.1f;` and reads its object representation
(`int i = *(int*)&f;`).  The bit pattern of the literal is fixed by
IEEE-754 single precision: round the real value to 24 significand bits,
ties to even.  Both literals the spec discusses (`1.1f`, `-1.0f`) have
their value `±(num/den)` with `den ≤ num < 2*den`, i.e. unbiased exponent
0 and biased exponent field 127, so the encoder below covers exactly that
normal-range case. -/

/-- IEEE-754 single-precision bit pattern of `±(num/den)` for
`den ≤ num < 2*den` (biased exponent 127): the 24-bit significand is
`num/den * 2^23` rounded to nearest, ties to even; the low 23 bits of the
significand are the mantissa field. -/
def float32BitsUnit (negative : Bool) (num den : Nat) : Nat :=
  let scaled := num * 2 ^ 23
  let q := scaled / den
  let r := scaled % den
  let significand :=
    if 2 * r < den then q
    else if den < 2 * r then q + 1
    else if q % 2 = 0 then q else q + 1
  (if negative then 1 <<< 31 else 0) ||| 127 <<< 23 ||| (significand - 2 ^ 23)

/-- The bit pattern the program reads out of `float f = 1.1f;`. -/
def float32OnePointOne : Nat := float32BitsUnit false 11 10

/-- The bit pattern of the literal `-1.0f` discussed by the spec. -/
def float32NegOne : Nat := float32BitsUnit true 1 1

/-- Sanity: the encoder reproduces the well-known pattern of `1.1f`. -/
theorem float32OnePointOne_eq : float32OnePointOne = 0x3F8CCCCD := by decide

/-- Sanity: the encoder reproduces the well-known pattern of `-1.0f`. -/
theorem float32NegOne_eq : float32NegOne = 0xBF800000 := by decide

/-! ## Claim C1: round-trip reconstruction -/

/-- C1: for every 32-bit pattern, the three extracted fields recombine to
the original pattern: `sign<<31 | exponent<<23 | mantissa = bits`. -/
theorem recombine_roundtrip (b : Nat) (hb : b < 2 ^ 32) :
    recombine (sign b) (exponent b) (mantissa b) = b := by
  have hs : sign b = b / 2 ^ 31 % 2 := by
    rw [sign, Nat.shiftRight_eq_div_pow, Nat.and_one_is_mod]
  have he : exponent b = b / 2 ^ 23 % 2 ^ 8 := by
    rw [exponent, Nat.shiftRight_eq_div_pow,
      show (0xFF : Nat) = 2 ^ 8 - 1 from rfl, Nat.and_pow_two_sub_one_eq_mod]
  have hm : mantissa b = b % 2 ^ 23 := by
    rw [mantissa, show (0x7FFFFF : Nat) = 2 ^ 23 - 1 from rfl,
      Nat.and_pow_two_sub_one_eq_mod]
  rw [recombine, hs, he, hm, Nat.shiftLeft_eq, Nat.shiftLeft_eq,
    Nat.mul_comm (b / 2 ^ 31 % 2) (2 ^ 31), Nat.mul_comm (b / 2 ^ 23 % 2 ^ 8) (2 ^ 23)]
  rw [← Nat.mul_add_lt_is_or (b := 2 ^ 23 * (b / 2 ^ 23 % 2 ^ 8)) (i := 31)
      (by
        have : b / 2 ^ 23 % 2 ^ 8 < 2 ^ 8 := Nat.mod_lt _ (by norm_num)
        calc 2 ^ 23 * (b / 2 ^ 23 % 2 ^ 8) ≤ 2 ^ 23 * (2 ^ 8 - 1) :=
              Nat.mul_le_mul_left _ (by omega)
          _ < 2 ^ 31 := by norm_num)]
  rw [show 2 ^ 31 * (b / 2 ^ 31 % 2) + 2 ^ 23 * (b / 2 ^ 23 % 2 ^ 8)
        = 2 ^ 23 * (2 ^ 8 * (b / 2 ^ 31 % 2) + b / 2 ^ 23 % 2 ^ 8) by ring]
  rw [← Nat.mul_add_lt_is_or (b := b % 2 ^ 23) (i := 23)
      (Nat.mod_lt _ (by norm_num))]
  omega

/-- Witness for C1 at the program's actual input pattern (bits of `1.1f`). -/
theorem recombine_roundtrip_witness :
    recombine (sign 0x3F8CCCCD) (exponent 0x3F8CCCCD) (mantissa 0x3F8CCCCD) = 0x3F8CCCCD :=
  recombine_roundtrip 0x3F8CCCCD (by decide)

/-! ## `createHeader`

C++ source:
```
string createHeader(string title, int bits)
\x7b
  int total_width = (bits * 3) + (bits - 1) - title.length();
  int left_pad  = total_width / 2;
  int right_pad = total_width - left_pad;
  return string(left_pad, ' ') + title + string(right_pad, ' ');
\x7d
```
`title.length()` is a `size_t`, so `(bits*3 + (bits-1)) - title.length()`
is computed in unsigned 64-bit arithmetic (the `int` operand is converted
to `size_t`), wraps modulo `2^64`, and is then truncated back to a signed
32-bit `int` (two's complement).  `/` on `int` truncates toward zero,
which `Int.tdiv` matches.  `string(count, ' ')` converts its count to
`size_t`; a negative `int` count wraps to an astronomically large value
and `std::string` raises `length_error`, modelled as `none`. -/

/-- Reduce an integer modulo `2^64` into `[0, 2^64)`: the value of the
C++ `size_t` subtraction. -/
def wrap64 (x : Int) : Nat := (x % (2 ^ 64 : Int)).toNat

/-- Two's-complement truncation of an unsigned 64-bit value to a signed
32-bit `int`. -/
def toInt32 (n : Nat) : Int :=
  if n % 2 ^ 32 < 2 ^ 31 then ((n % 2 ^ 32 : Nat) : Int)
  else ((n % 2 ^ 32 : Nat) : Int) - 2 ^ 32

/-- The `total_width` computed by `createHeader`: C++ evaluates
`(bits*3) + (bits-1) - L` in `size_t` and stores it into an `int`. -/
def totalWidth (bits L : Nat) : Int :=
  toInt32 (wrap64 ((bits : Int) * 3 + ((bits : Int) - 1) - (L : Int)))

/-- `string(n, ' ')`: a run of `n` spaces. -/
def spaces (n : Nat) : String := String.mk (List.replicate n ' ')

/-- Embedding of `createHeader`; `none` models the `std::string`
`length_error` raised when a pad count is negative (it wraps to a value
beyond `max_size()`). -/
def createHeader (title : String) (bits : Nat) : Option String :=
  let total_width := totalWidth bits title.length
  let left_pad := Int.tdiv total_width 2
  let right_pad := total_width - left_pad
  if 0 ≤ left_pad ∧ 0 ≤ right_pad then
    some (spaces left_pad.toNat ++ title ++ spaces right_pad.toNat)
  else none

theorem spaces_length (n : Nat) : (spaces n).length = n := by
  simp [spaces, String.length]

/-- In the range where nothing wraps, `total_width` is the plain
difference `3*bits + (bits-1) - L`. -/
theorem totalWidth_eq (bits L : Nat) (hb : bits ≤ 2 ^ 28) (hL : L ≤ 2 ^ 30) :
    totalWidth bits L = (bits : Int) * 3 + ((bits : Int) - 1) - (L : Int) := by
  unfold totalWidth wrap64 toInt32
  split <;> omega

/-- When the title fits (`L ≤ 4*bits - 1`), `createHeader` succeeds and
returns left pad `W/2`, the title, then right pad `W - W/2`, where
`W = 3*bits + (bits-1) - L`. -/
theorem createHeader_eq_of_le (title : String) (bits : Nat)
    (h1 : 1 ≤ bits) (h2 : bits ≤ 2 ^ 28) (h3 : title.length ≤ 4 * bits - 1) :
    createHeader title bits =
      some (spaces ((3 * bits + (bits - 1) - title.length) / 2) ++ title ++
        spaces ((3 * bits + (bits - 1) - title.length) -
          (3 * bits + (bits - 1) - title.length) / 2)) := by
  have hL : title.length ≤ 2 ^ 30 := by omega
  have htw : totalWidth bits title.length
      = ((3 * bits + (bits - 1) - title.length : Nat) : Int) := by
    rw [totalWidth_eq bits title.length h2 hL]; omega
  have htd : Int.tdiv ((3 * bits + (bits - 1) - title.length : Nat) : Int) 2
      = (((3 * bits + (bits - 1) - title.length) / 2 : Nat) : Int) := by
    rw [Int.tdiv_eq_ediv (by omega) (by omega)]
    omega
  simp only [createHeader, htw, htd]
  rw [if_pos (by constructor <;> omega)]
  have e1 : (((3 * bits + (bits - 1) - title.length) / 2 : Nat) : Int).toNat
      = (3 * bits + (bits - 1) - title.length) / 2 := by omega
  have e2 : ((((3 * bits + (bits - 1) - title.length) : Nat) : Int) -
      (((3 * bits + (bits - 1) - title.length) / 2 : Nat) : Int)).toNat
      = 3 * bits + (bits - 1) - title.length -
        (3 * bits + (bits - 1) - title.length) / 2 := by omega
  rw [e1, e2]

/-- When the title does not fit, the wrapped `total_width` is negative and
`createHeader` fails (models the `length_error`). -/
theorem createHeader_none_of_gt (title : String) (bits : Nat)
    (h1 : 1 ≤ bits) (h2 : bits ≤ 2 ^ 28) (hL : title.length ≤ 2 ^ 30)
    (h3 : 4 * bits - 1 < title.length) :
    createHeader title bits = none := by
  have htw : totalWidth bits title.length
      = (bits : Int) * 3 + ((bits : Int) - 1) - (title.length : Int) :=
    totalWidth_eq bits title.length h2 hL
  rw [createHeader]
  simp only [htw]
  rw [if_neg]
  rintro ⟨ha, hb'⟩
  omega

/-! ## The program's output

Lines 22-30 of the source: one header row
`'|' << createHeader("+",1) << '|' << createHeader("exponent",8) << '|'
<< createHeader("mantissa",23) << "|\n| "`, then a loop
`for (int bit = 31; bit >= 0; --bit) cout << ((i >> bit) & 1) << " | ";`.

`i` holds the float's 32-bit pattern; we carry that pattern as a `Nat`
below `2^32`.  For the one value the program runs on, `i` is positive;
in general, C++ arithmetic right shift on the signed `int` followed by
`& 1` reads the same bit of the two's-complement pattern as `Nat`
logical shift does, so the `Nat` model is exact bit for bit. -/

/-- One loop iteration: `cout << ((i >> bit) & 1) << " | "`. -/
def bitCell (i bit : Nat) : String := toString ((i >>> bit) &&& 1) ++ " | "

/-- The bits row printed by the loop, `bit` running 31 down to 0. -/
def bitRow (i : Nat) : String :=
  String.join (((List.range 32).reverse).map (bitCell i))

/-- The header row, ending in the `"|\n| "` that opens the bits row. -/
def headerRow : String :=
  "|" ++ (createHeader "+" 1).getD "" ++
  "|" ++ (createHeader "exponent" 8).getD "" ++
  "|" ++ (createHeader "mantissa" 23).getD "" ++ "|\n| "

/-- Everything `main` writes to stdout for bit pattern `i`. -/
def fullOutput (i : Nat) : String := headerRow ++ bitRow i

/-- The three concrete header calls all succeed (no `getD` default is
ever taken in `headerRow`). -/
theorem headerRow_calls_succeed :
    (createHeader "+" 1).isSome ∧ (createHeader "exponent" 8).isSome ∧
      (createHeader "mantissa" 23).isSome := by decide

/-- Whether `pat` occurs as a contiguous run inside `s`. -/
def hasSub (pat : List Char) (s : List Char) : Bool :=
  match s with
  | [] => pat.isEmpty
  | _ :: cs => (s.take pat.length == pat) || hasSub pat cs

/-! ## Process model

The program's only interaction with the world is writing `fullOutput` to
stdout; `ProcState` separates the stdout stream from everything else. -/

/-- World state visible to the process: the stdout stream plus an
arbitrary remainder (files, environment, ...). -/
structure ProcState (σ : Type) where
  stdout : String
  rest : σ

/-- Running `main` on the float whose bit pattern is `fbits`: the whole
run is one pure computation followed by one write to stdout. -/
def runProgram {σ : Type} (fbits : Nat) (s : ProcState σ) : ProcState σ :=
  ProcState.mk (s.stdout ++ fullOutput fbits) s.rest

/-! ## The reinterpretation mechanism

Line 20, `int i = *(int*)&f;`, reads the float's storage through an
`int*`.  The mechanism the source uses is a syntactic fact; it is
embedded as data so the spec's requirement (§9) can be compared with it. -/

/-- Ways of viewing a float's storage as an integer. -/
inductive BitReinterpretMethod where
  /-- `*(int*)&f`: dereferencing a cast pointer (strict-aliasing UB). -/
  | pointerCast
  /-- Writing the float member of a union and reading the int member. -/
  | unionPun
  /-- `memcpy`-style byte copy into an integer object. -/
  | byteCopy
  /-- `std::bit_cast` or an equivalent built-in. -/
  | builtinBitCast
  deriving DecidableEq

/-- The mechanism the source actually uses at line 20: `*(int*)&f`. -/
def methodUsed : BitReinterpretMethod := .pointerCast

/-- Follows the spec's words (§9): the defined-behavior mechanisms are a
union, a byte-copy into an integer, or a built-in bit-cast; a
dereferenced pointer cast is the undefined-behavior one. -/
def isDefinedBehaviorMethod : BitReinterpretMethod → Bool
  | .pointerCast => false
  | .unionPun => true
  | .byteCopy => true
  | .builtinBitCast => true

/-! ## Claims about the decomposition of the literals -/

/-- C2 (counterexample): the claim gives the mantissa of `1.1f` both as
the binary string `0b00011001100110011001101` and as the decimal
3,355,443; the actual mantissa field is 838,861, so the decimal part of
the claim is false. -/
theorem mantissa_onePointOne_ne_claimed_decimal :
    mantissa float32OnePointOne ≠ 3355443 := by decide

/-- C2 (amended): decomposing `1.1f` yields `sign = 0`,
`exponent = 0b01111111` (127) and
`mantissa = 0b00011001100110011001101`, whose decimal value is 838,861
(not 3,355,443). -/
theorem decompose_onePointOne :
    sign float32OnePointOne = 0 ∧
    exponent float32OnePointOne = 0b01111111 ∧
    exponent float32OnePointOne = 127 ∧
    mantissa float32OnePointOne = 0b00011001100110011001101 ∧
    mantissa float32OnePointOne = 838861 := by decide

/-- C7: decomposing `-1.0f` yields `sign = 1`, `exponent = 127`,
`mantissa = 0`. -/
theorem decompose_negOne :
    sign float32NegOne = 1 ∧ exponent float32NegOne = 127 ∧
      mantissa float32NegOne = 0 := by decide

/-! ## Claims about the output text -/

/-- C3 (counterexample): on the program's input `1.1f`, stdout does not
echo the input value: the text `"1.1"` never occurs in the output, and
the output contains no `'.'` at all, while any decimal rendering of the
float `1.1f` (`"1.1"`, `"1.100000"`, ...) contains one. -/
theorem output_has_no_input_echo :
    hasSub "1.1".toList (fullOutput float32OnePointOne).toList = false ∧
      (fullOutput float32OnePointOne).toList.contains '.' = false := by decide

/-- C3 (amended): the program's stdout is exactly the header row followed
by the per-bit row of the input's 32 bits; the input value itself is
never echoed.  The concrete text below is the program's entire output
for `1.1f`. -/
theorem fullOutput_onePointOne_exact :
    fullOutput float32OnePointOne =
      "| + |           exponent            |                                         mantissa                                          |\n| 0 | 0 | 1 | 1 | 1 | 1 | 1 | 1 | 1 | 0 | 0 | 0 | 1 | 1 | 0 | 0 | 1 | 1 | 0 | 0 | 1 | 1 | 0 | 0 | 1 | 1 | 0 | 0 | 1 | 1 | 0 | 1 | " := by
  decide

/-- C6: the per-bit row prints the 32 bits of the pattern individually,
most-significant (bit `31 - 0`) first down to bit 0, each bit as the
single character `'1'` or `'0'` followed by the `" | "` separator. -/
theorem bitRow_msb_first (i : Nat) :
    bitRow i = String.join ((List.range 32).map
      (fun k => (if i.testBit (31 - k) then "1" else "0") ++ " | ")) := by
  have hcell : ∀ b : Nat, bitCell i b = (if i.testBit b then "1" else "0") ++ " | " := by
    intro b
    rw [bitCell]
    congr 1
    rw [Nat.shiftRight_eq_div_pow, Nat.and_one_is_mod, Nat.testBit_to_div_mod]
    rcases Nat.mod_two_eq_zero_or_one (i / 2 ^ b) with h | h <;> rw [h] <;> decide
  have hrev : (List.range 32).reverse = (List.range 32).map (fun k => 31 - k) := by
    decide
  rw [bitRow, hrev, List.map_map]
  have hfun : (bitCell i ∘ fun k => 31 - k)
      = fun k => (if i.testBit (31 - k) then "1" else "0") ++ " | " :=
    funext fun k => hcell (31 - k)
  rw [hfun]

/-! ## Claims about `createHeader` -/

/-- C4: for a title of length `L` over `B` bits (in the range where the
C++ `int` arithmetic does not wrap and the title fits), the computed
total padding width is `3*B + (B-1) - L`, split into a left pad of
`width/2` (integer division) and a right pad of `width - left`, with the
title between the pads. -/
theorem createHeader_centered (title : String) (bits : Nat)
    (h1 : 1 ≤ bits) (h2 : bits ≤ 2 ^ 28) (h3 : title.length ≤ 4 * bits - 1) :
    totalWidth bits title.length
        = ((3 * bits + (bits - 1) - title.length : Nat) : Int) ∧
      createHeader title bits =
        some (spaces ((3 * bits + (bits - 1) - title.length) / 2) ++ title ++
          spaces ((3 * bits + (bits - 1) - title.length) -
            (3 * bits + (bits - 1) - title.length) / 2)) := by
  constructor
  · rw [totalWidth_eq bits title.length h2 (by omega)]
    omega
  · exact createHeader_eq_of_le title bits h1 h2 h3

/-- Witness for C4 at the program's actual call `createHeader("exponent", 8)`. -/
theorem createHeader_centered_witness :
    createHeader "exponent" 8 = some "           exponent            " := by
  have h := createHeader_centered "exponent" 8 (by decide) (by decide) (by decide)
  rw [h.2]
  decide

/-- C5: the two pads of a header sum exactly to the computed total column
width `3*B + (B-1) - L`, and they differ by at most one character (the
right pad is the left pad or one more). -/
theorem createHeader_pad_balanced (title : String) (bits : Nat)
    (h1 : 1 ≤ bits) (h2 : bits ≤ 2 ^ 28) (h3 : title.length ≤ 4 * bits - 1) :
    createHeader title bits =
        some (spaces ((3 * bits + (bits - 1) - title.length) / 2) ++ title ++
          spaces ((3 * bits + (bits - 1) - title.length) -
            (3 * bits + (bits - 1) - title.length) / 2)) ∧
      (3 * bits + (bits - 1) - title.length) / 2 +
          ((3 * bits + (bits - 1) - title.length) -
            (3 * bits + (bits - 1) - title.length) / 2)
        = 3 * bits + (bits - 1) - title.length ∧
      ((3 * bits + (bits - 1) - title.length) -
          (3 * bits + (bits - 1) - title.length) / 2
            = (3 * bits + (bits - 1) - title.length) / 2 ∨
       (3 * bits + (bits - 1) - title.length) -
          (3 * bits + (bits - 1) - title.length) / 2
            = (3 * bits + (bits - 1) - title.length) / 2 + 1) := by
  refine ⟨createHeader_eq_of_le title bits h1 h2 h3, by omega, by omega⟩

/-- Witness for C5 at the program's call `createHeader("mantissa", 23)`:
pads 41 and 42 sum to the total width 83 and differ by one. -/
theorem createHeader_pad_balanced_witness :
    createHeader "mantissa" 23 = some (spaces 41 ++ "mantissa" ++ spaces 42) ∧
      41 + 42 = 83 ∧ (42 = 41 ∨ 42 = 41 + 1) := by
  have h := createHeader_pad_balanced "mantissa" 23 (by decide) (by decide) (by decide)
  refine ⟨?_, by decide, by decide⟩
  rw [h.1]
  decide

/-- C10: `createHeader` is well-defined exactly when the title fits,
`L ≤ 4*bits - 1` (within the range where the C++ `int` does not
overflow): then the total width is non-negative and the returned string
has length exactly `4*bits - 1`.  For a longer title the `size_t`
subtraction wraps, the truncated `total_width` is negative, and no
header string is produced (the `string(count, ' ')` constructor fails). -/
theorem createHeader_defined_iff_title_fits (title : String) (bits : Nat)
    (h1 : 1 ≤ bits) (h2 : bits ≤ 2 ^ 28) (hL : title.length ≤ 2 ^ 30) :
    (title.length ≤ 4 * bits - 1 →
      ∃ s, createHeader title bits = some s ∧ s.length = 4 * bits - 1 ∧
        0 ≤ totalWidth bits title.length) ∧
    (4 * bits - 1 < title.length →
      totalWidth bits title.length < 0 ∧ createHeader title bits = none) := by
  constructor
  · intro h3
    refine ⟨_, createHeader_eq_of_le title bits h1 h2 h3, ?_, ?_⟩
    · rw [String.length_append, String.length_append, spaces_length, spaces_length]
      omega
    · rw [totalWidth_eq bits title.length h2 hL]
      omega
  · intro h3
    refine ⟨?_, createHeader_none_of_gt title bits h1 h2 hL h3⟩
    rw [totalWidth_eq bits title.length h2 hL]
    omega

/-- Witness for C10: the in-range call `createHeader("+", 1)` yields the
3-character header `" + "`, and an over-long title over 1 bit yields no
header at all. -/
theorem createHeader_defined_iff_title_fits_witness :
    createHeader "++++" 1 = none := by
  have h := createHeader_defined_iff_title_fits "++++" 1 (by decide) (by decide) (by decide)
  exact (h.2 (by decide)).2

/-! ## Claims about the reinterpretation mechanism and effects -/

/-- C8 (counterexample): the mechanism the source uses at line 20,
`*(int*)&f`, is not one of the defined-behavior mechanisms the spec
requires (union / byte-copy / built-in bit-cast). -/
theorem methodUsed_not_defined_behavior :
    isDefinedBehaviorMethod methodUsed = false := by decide

/-- C8 (amended): the source expresses the reinterpretation by
dereferencing a cast pointer, `*(int*)&f` — exactly the
undefined-behavior aliasing the spec says to avoid — and not by any
defined-behavior mechanism. -/
theorem methodUsed_is_pointer_cast :
    methodUsed = BitReinterpretMethod.pointerCast ∧
      isDefinedBehaviorMethod BitReinterpretMethod.pointerCast = false := by decide

/-- C9: the run is one pure computation followed by one write: there is a
single output text, depending only on the input bits, such that running
the program appends exactly that text to stdout and leaves every other
part of the state untouched; two runs on the same input thus write
identical text. -/
theorem runProgram_pure_stdout_append {σ : Type} (fbits : Nat) :
    ∃ out : String, ∀ s : ProcState σ,
      runProgram fbits s = ProcState.mk (s.stdout ++ out) s.rest :=
  ⟨fullOutput fbits, fun _ => rfl⟩

end FloatInspector
